import Mathlib

set_option maxRecDepth 1000000

attribute [local semireducible] Rat.mul Rat.add Rat.sub Rat.inv Rat.ofScientific

/-!
# Verification of the OTP core of `Nodejs-authenticator`

Shallow embedding, in Lean 4, of the code-generation and credential-URI
parsing engine of the repository:

* `src/services/otp-generator.js` — HOTP/TOTP/Steam/Battle code generation
  (HMAC dynamic truncation per RFC 4226), secret decoding (Base32 / hex),
  multiple-code emission and code verification;
* `src/lib/otp-parser.js` — `otpauth://` credential-URI parsing with its
  normalization rules and vendor overrides;
* `src/services/qr-service-optimized.js` — the ordered image-transform
  decode loop (the 2D-barcode decoder itself is an external collaborator and
  is modelled as an input: the list of its per-transform outcomes).

Bytes are modelled as `Nat` values (each `< 256` where produced by the
embedding), machine words as `Nat` with explicit reduction `% 2^32`
(resp. `2^64`), matching JavaScript's integer behaviour on the ranges the
code uses.  Fallible JavaScript code (thrown exceptions) is modelled with
`Option`: `none` is a thrown error.
-/

namespace NodeAuth

/-! ## Byte and word helpers -/

/-- Interpret a list of bytes as a big-endian natural number. -/
def beNat (bs : List Nat) : Nat := bs.foldl (fun a b => a * 256 + b) 0

/-- The `w`-byte big-endian representation of `n % 256^w`. -/
def beBytes (w n : Nat) : List Nat :=
  (List.range w).map (fun i => n / 256 ^ (w - 1 - i) % 256)

/-- 32-bit truncating addition. -/
def add32 (a b : Nat) : Nat := (a + b) % 2 ^ 32

/-- 32-bit left rotation (operand reduced to 32 bits first). -/
def rotl32 (n x : Nat) : Nat :=
  let x := x % 2 ^ 32
  (x % 2 ^ (32 - n)) * 2 ^ n + x / 2 ^ (32 - n)

/-- Bitwise complement on 32 bits. -/
def not32 (x : Nat) : Nat := Nat.xor (x % 2 ^ 32) (2 ^ 32 - 1)

/-- Split a list into consecutive chunks of `k` elements, structurally
recursing on a fuel bound so the kernel can evaluate it (`k > 0`; a final
ragged chunk is kept, but the embedding only chunks exact multiples). -/
def chunksFuel (k : Nat) : Nat → List Nat → List (List Nat)
  | 0, _ => []
  | _, [] => []
  | fuel + 1, a :: t => (a :: t).take k :: chunksFuel k fuel ((a :: t).drop k)

/-- Split a list into consecutive chunks of `k` elements. -/
def chunks (k : Nat) (l : List Nat) : List (List Nat) := chunksFuel k l.length l

/-! ## SHA-1 (FIPS 180-4), executable

Models Node's `crypto` SHA-1 digest as used by `createHmac('sha1', …)`. -/

/-- Merkle–Damgård padding shared by SHA-1/SHA-256: append `0x80`, zero bytes
to 56 mod 64, then the bit length as 8 big-endian bytes. -/
def md64Pad (msg : List Nat) : List Nat :=
  msg ++ 0x80 :: List.replicate ((119 - msg.length % 64) % 64) 0
      ++ beBytes 8 (msg.length * 8)

/-- Pack bytes into big-endian 32-bit words (length a multiple of 4). -/
def words32 (bs : List Nat) : List Nat := (chunks 4 bs).map beNat

/-- SHA-1 round function `f_t`. -/
def sha1F (t b c d : Nat) : Nat :=
  if t < 20 then Nat.lor (Nat.land b c) (Nat.land (not32 b) d)
  else if t < 40 then Nat.xor b (Nat.xor c d)
  else if t < 60 then Nat.lor (Nat.lor (Nat.land b c) (Nat.land b d)) (Nat.land c d)
  else Nat.xor b (Nat.xor c d)

/-- SHA-1 round constant `K_t`. -/
def sha1K (t : Nat) : Nat :=
  if t < 20 then 0x5a827999
  else if t < 40 then 0x6ed9eba1
  else if t < 60 then 0x8f1bbcdc
  else 0xca62c1d6

/-- Extend the 16 message words of one block to the 80-entry SHA-1 schedule. -/
def sha1Schedule (ws : List Nat) : List Nat :=
  (List.range 64).foldl
    (fun w t =>
      let i := t + 16
      w ++ [rotl32 1 (Nat.xor (w.getD (i - 3) 0)
        (Nat.xor (w.getD (i - 8) 0)
          (Nat.xor (w.getD (i - 14) 0) (w.getD (i - 16) 0))))])
    ws

/-- One SHA-1 compression step. -/
def sha1Round (w : List Nat) (st : Nat × Nat × Nat × Nat × Nat) (t : Nat) :
    Nat × Nat × Nat × Nat × Nat :=
  let (a, b, c, d, e) := st
  let tmp := (rotl32 5 a + sha1F t b c d + e + sha1K t + w.getD t 0) % 2 ^ 32
  (tmp, a, rotl32 30 b, c, d)

/-- Compress one 64-byte block into the running SHA-1 state. -/
def sha1Block (h : Nat × Nat × Nat × Nat × Nat) (block : List Nat) :
    Nat × Nat × Nat × Nat × Nat :=
  let w := sha1Schedule (words32 block)
  let (a, b, c, d, e) := (List.range 80).foldl (sha1Round w) h
  let (h0, h1, h2, h3, h4) := h
  (add32 h0 a, add32 h1 b, add32 h2 c, add32 h3 d, add32 h4 e)

/-- SHA-1 digest of a byte list, as 20 bytes. -/
def sha1 (msg : List Nat) : List Nat :=
  let init : Nat × Nat × Nat × Nat × Nat :=
    (0x67452301, 0xefcdab89, 0x98badcfe, 0x10325476, 0xc3d2e1f0)
  let (h0, h1, h2, h3, h4) := (chunks 64 (md64Pad msg)).foldl sha1Block init
  beBytes 4 h0 ++ beBytes 4 h1 ++ beBytes 4 h2 ++ beBytes 4 h3 ++ beBytes 4 h4

/-! ## SHA-256 / SHA-512 (FIPS 180-4), executable

Models Node's `crypto` digests as used by `createHmac('sha256'|'sha512', …)`.
The state is a list of 8 words. -/

/-- Right rotation on `w`-bit words. -/
def rotr (w n x : Nat) : Nat :=
  let x := x % 2 ^ w
  x / 2 ^ n + (x % 2 ^ n) * 2 ^ (w - n)

/-- The 64 SHA-256 round constants of FIPS 180-4 §4.2.2 (fractional parts of
the cube roots of the first 64 primes), written in decimal. -/
def sha256K : List Nat :=
  [1116352408, 1899447441, 3049323471, 3921009573, 961987163, 1508970993,
   2453635748, 2870763221, 3624381080, 310598401, 607225278, 1426881987,
   1925078388, 2162078206, 2614888103, 3248222580, 3835390401, 4022224774,
   264347078, 604807628, 770255983, 1249150122, 1555081692, 1996064986,
   2554220882, 2821834349, 2952996808, 3210313671, 3336571891, 3584528711,
   113926993, 338241895, 666307205, 773529912, 1294757372, 1396182291,
   1695183700, 1986661051, 2177026350, 2456956037, 2730485921, 2820302411,
   3259730800, 3345764771, 3516065817, 3600352804, 4094571909, 275423344,
   430227734, 506948616, 659060556, 883997877, 958139571, 1322822218,
   1537002063, 1747873779, 1955562222, 2024104815, 2227730452, 2361852424,
   2428436474, 2756734187, 3204031479, 3329325298]

/-- SHA-256 message-schedule extension of the 16 block words to 64. -/
def sha256Schedule (ws : List Nat) : List Nat :=
  (List.range 48).foldl
    (fun w t =>
      let i := t + 16
      let x15 := w.getD (i - 15) 0
      let x2 := w.getD (i - 2) 0
      let s0 := Nat.xor (rotr 32 7 x15) (Nat.xor (rotr 32 18 x15) (x15 / 2 ^ 3))
      let s1 := Nat.xor (rotr 32 17 x2) (Nat.xor (rotr 32 19 x2) (x2 / 2 ^ 10))
      w ++ [(w.getD (i - 16) 0 + s0 + w.getD (i - 7) 0 + s1) % 2 ^ 32])
    ws

/-- One SHA-256 compression step. -/
def sha256Round (w : List Nat) (st : List Nat) (t : Nat) : List Nat :=
  match st with
  | [a, b, c, d, e, f, g, h] =>
    let s1 := Nat.xor (rotr 32 6 e) (Nat.xor (rotr 32 11 e) (rotr 32 25 e))
    let ch := Nat.xor (Nat.land e f) (Nat.land (not32 e) g)
    let t1 := (h + s1 + ch + sha256K.getD t 0 + w.getD t 0) % 2 ^ 32
    let s0 := Nat.xor (rotr 32 2 a) (Nat.xor (rotr 32 13 a) (rotr 32 22 a))
    let mj := Nat.xor (Nat.land a b) (Nat.xor (Nat.land a c) (Nat.land b c))
    let t2 := (s0 + mj) % 2 ^ 32
    [(t1 + t2) % 2 ^ 32, a, b, c, (d + t1) % 2 ^ 32, e, f, g]
  | _ => st

/-- Compress one 64-byte block into the running SHA-256 state. -/
def sha256Block (h : List Nat) (block : List Nat) : List Nat :=
  let w := sha256Schedule (words32 block)
  let st := (List.range 64).foldl (sha256Round w) h
  (List.range 8).map (fun i => add32 (h.getD i 0) (st.getD i 0))

/-- SHA-256 digest of a byte list, as 32 bytes. -/
def sha256 (msg : List Nat) : List Nat :=
  let init : List Nat :=
    [1779033703, 3144134277, 1013904242, 2773480762,
     1359893119, 2600822924, 528734635, 1541459225]
  ((chunks 64 (md64Pad msg)).foldl sha256Block init).foldr
    (fun w acc => beBytes 4 w ++ acc) []

/-- The 80 SHA-512 round constants of FIPS 180-4 §4.2.3 (fractional parts of
the cube roots of the first 80 primes), written in decimal. -/
def sha512K : List Nat :=
  [4794697086780616226, 8158064640168781261, 13096744586834688815, 16840607885511220156,
   4131703408338449720, 6480981068601479193, 10538285296894168987, 12329834152419229976,
   15566598209576043074, 1334009975649890238, 2608012711638119052, 6128411473006802146,
   8268148722764581231, 9286055187155687089, 11230858885718282805, 13951009754708518548,
   16472876342353939154, 17275323862435702243, 1135362057144423861, 2597628984639134821,
   3308224258029322869, 5365058923640841347, 6679025012923562964, 8573033837759648693,
   10970295158949994411, 12119686244451234320, 12683024718118986047, 13788192230050041572,
   14330467153632333762, 15395433587784984357, 489312712824947311, 1452737877330783856,
   2861767655752347644, 3322285676063803686, 5560940570517711597, 5996557281743188959,
   7280758554555802590, 8532644243296465576, 9350256976987008742, 10552545826968843579,
   11727347734174303076, 12113106623233404929, 14000437183269869457, 14369950271660146224,
   15101387698204529176, 15463397548674623760, 17586052441742319658, 1182934255886127544,
   1847814050463011016, 2177327727835720531, 2830643537854262169, 3796741975233480872,
   4115178125766777443, 5681478168544905931, 6601373596472566643, 7507060721942968483,
   8399075790359081724, 8693463985226723168, 9568029438360202098, 10144078919501101548,
   10430055236837252648, 11840083180663258601, 13761210420658862357, 14299343276471374635,
   14566680578165727644, 15097957966210449927, 16922976911328602910, 17689382322260857208,
   500013540394364858, 748580250866718886, 1242879168328830382, 1977374033974150939,
   2944078676154940804, 3659926193048069267, 4368137639120453308, 4836135668995329356,
   5532061633213252278, 6448918945643986474, 6902733635092675308, 7801388544844847127]

/-- SHA-512 padding: append `0x80`, zero bytes to 112 mod 128, then the bit
length as 16 big-endian bytes. -/
def md128Pad (msg : List Nat) : List Nat :=
  msg ++ 0x80 :: List.replicate ((239 - msg.length % 128) % 128) 0
      ++ beBytes 16 (msg.length * 8)

/-- Pack bytes into big-endian 64-bit words (length a multiple of 8). -/
def words64 (bs : List Nat) : List Nat := (chunks 8 bs).map beNat

/-- SHA-512 message-schedule extension of the 16 block words to 80. -/
def sha512Schedule (ws : List Nat) : List Nat :=
  (List.range 64).foldl
    (fun w t =>
      let i := t + 16
      let x15 := w.getD (i - 15) 0
      let x2 := w.getD (i - 2) 0
      let s0 := Nat.xor (rotr 64 1 x15) (Nat.xor (rotr 64 8 x15) (x15 / 2 ^ 7))
      let s1 := Nat.xor (rotr 64 19 x2) (Nat.xor (rotr 64 61 x2) (x2 / 2 ^ 6))
      w ++ [(w.getD (i - 16) 0 + s0 + w.getD (i - 7) 0 + s1) % 2 ^ 64])
    ws

/-- Bitwise complement on 64 bits. -/
def not64 (x : Nat) : Nat := Nat.xor (x % 2 ^ 64) (2 ^ 64 - 1)

/-- One SHA-512 compression step. -/
def sha512Round (w : List Nat) (st : List Nat) (t : Nat) : List Nat :=
  match st with
  | [a, b, c, d, e, f, g, h] =>
    let s1 := Nat.xor (rotr 64 14 e) (Nat.xor (rotr 64 18 e) (rotr 64 41 e))
    let ch := Nat.xor (Nat.land e f) (Nat.land (not64 e) g)
    let t1 := (h + s1 + ch + sha512K.getD t 0 + w.getD t 0) % 2 ^ 64
    let s0 := Nat.xor (rotr 64 28 a) (Nat.xor (rotr 64 34 a) (rotr 64 39 a))
    let mj := Nat.xor (Nat.land a b) (Nat.xor (Nat.land a c) (Nat.land b c))
    let t2 := (s0 + mj) % 2 ^ 64
    [(t1 + t2) % 2 ^ 64, a, b, c, (d + t1) % 2 ^ 64, e, f, g]
  | _ => st

/-- Compress one 128-byte block into the running SHA-512 state. -/
def sha512Block (h : List Nat) (block : List Nat) : List Nat :=
  let w := sha512Schedule (words64 block)
  let st := (List.range 80).foldl (sha512Round w) h
  (List.range 8).map (fun i => (h.getD i 0 + st.getD i 0) % 2 ^ 64)

/-- SHA-512 digest of a byte list, as 64 bytes. -/
def sha512 (msg : List Nat) : List Nat :=
  let init : List Nat :=
    [7640891576956012808, 13503953896175478587, 4354685564936845355,
     11912009170470909681, 5840696475078001361, 11170449401992604703,
     2270897969802886507, 6620516959819538809]
  ((chunks 128 (md128Pad msg)).foldl sha512Block init).foldr
    (fun w acc => beBytes 8 w ++ acc) []

/-! ## HMAC (RFC 2104), executable

Models Node's `crypto.createHmac(alg, key).update(msg).digest()`. -/

/-- HMAC over an arbitrary hash with the given block size. -/
def hmac (hash : List Nat → List Nat) (blockSize : Nat) (key msg : List Nat) :
    List Nat :=
  let k0 := if blockSize < key.length then hash key else key
  let k := k0 ++ List.replicate (blockSize - k0.length) 0
  hash ((k.map (Nat.xor · 0x5c)) ++ hash ((k.map (Nat.xor · 0x36)) ++ msg))

/-- Model of `crypto.createHmac(name, key)`: the HMAC function for the three
digests Node supports here, `none` (a thrown error) for an unknown name.
The generator lower-cases the algorithm before this call. -/
def createHmac (name : String) : Option (List Nat → List Nat → List Nat) :=
  if name = "sha1" then some (hmac sha1 64)
  else if name = "sha256" then some (hmac sha256 64)
  else if name = "sha512" then some (hmac sha512 128)
  else none

/-! ## Secret decoding (`OTPGenerator.base32ToBuffer` / `hexToBuffer`)

From `src/services/otp-generator.js:219-256`. -/

/-- The RFC 4648 Base32 alphabet used by `base32ToBuffer`. -/
def base32Chars : List Char := "ABCDEFGHIJKLMNOPQRSTUVWXYZ234567".toList

/-- Index of a character in the Base32 alphabet; `none` models the thrown
`Invalid Base32 character` error (`indexOf === -1`). -/
def b32Index (c : Char) : Option Nat := base32Chars.indexOf? c

/-- Embeds `OTPGenerator.base32ToBuffer` (`otp-generator.js:219-244`):
upper-case, strip every `=`, emit 5 bits per character, keep the complete
8-bit groups.  `none` models the throw on a character outside the alphabet. -/
def base32ToBuffer (base32 : String) : Option (List Nat) := do
  let cleaned := (base32.toList.map Char.toUpper).filter (fun c => c ≠ '=')
  let vals ← cleaned.mapM b32Index
  let bits := (vals.map (fun v =>
    [v / 16 % 2, v / 8 % 2, v / 4 % 2, v / 2 % 2, v % 2])).flatten
  return ((chunks 8 bits).filter (fun g => g.length = 8)).map
    (fun g => g.foldl (fun a b => 2 * a + b) 0)

/-- Value of a hexadecimal digit (either case); `none` for other characters. -/
def hexVal (c : Char) : Option Nat :=
  if '0' ≤ c ∧ c ≤ '9' then some (c.toNat - 48)
  else if 'a' ≤ c ∧ c ≤ 'f' then some (c.toNat - 87)
  else if 'A' ≤ c ∧ c ≤ 'F' then some (c.toNat - 55)
  else none

/-- Pairwise hex decoding with Node `Buffer.from(·, 'hex')` semantics: decode
two digits at a time and stop silently at the first invalid pair. -/
def hexPairs : List Char → List Nat
  | c1 :: c2 :: rest =>
    match hexVal c1, hexVal c2 with
    | some h, some l => (16 * h + l) :: hexPairs rest
    | _, _ => []
  | _ => []

/-- Embeds `OTPGenerator.hexToBuffer` (`otp-generator.js:251-256`): left-pad
with one `0` nibble when the length is odd, then `Buffer.from(hex, 'hex')`,
which never throws — it truncates at the first non-hex pair. -/
def hexToBuffer (hex : String) : List Nat :=
  let h := if hex.length % 2 ≠ 0 then '0' :: hex.toList else hex.toList
  hexPairs h

/-! ## Code generation (`OTPGenerator`)

From `src/services/otp-generator.js`.  JavaScript numbers are modelled as
`Nat`/`Int`/`ℚ` as appropriate; `Option` models thrown errors.  Time is an
explicit parameter where the source reads `Date.now()`. -/

/-- The 8 counter bytes written by
`counterBuffer.writeUInt32BE(0, 0); counterBuffer.writeUInt32BE(counter, 4)`
(`otp-generator.js:161-163` and `190-192`): the high word is the constant 0
and only the low 32 bits of the counter are written.  `writeUInt32BE` throws
a `RangeError` outside `[0, 2^32)`, modelled by `none`. -/
def counterBytes (counter : Int) : Option (List Nat) :=
  if 0 ≤ counter ∧ counter < 2 ^ 32 then
    some (beBytes 4 0 ++ beBytes 4 counter.toNat)
  else none

/-- `String.prototype.padStart(n, c)`. -/
def padStart (s : String) (n : Nat) (c : Char) : String :=
  ⟨List.replicate (n - s.length) c ++ s.toList⟩

/-- Embeds `OTPGenerator.generateOTPCode` (`otp-generator.js:156-177`): decode
the secret, build the 8 counter bytes, HMAC, dynamic truncation (offset = low
nibble of the last hash byte, 4 bytes big-endian, top bit masked), reduce
modulo `10^digits`, left-pad with zeros. -/
def generateOTPCode (secret : String) (counter : Int) (digits : Nat)
    (algorithm : String) (isHex : Bool) : Option String := do
  let key ← if isHex then some (hexToBuffer secret) else base32ToBuffer secret
  let counterBuffer ← counterBytes counter
  let hmacF ← createHmac ⟨algorithm.toList.map Char.toLower⟩
  let hash := hmacF key counterBuffer
  let offset := Nat.land (hash.getLastD 0) 0xf
  if offset + 4 ≤ hash.length then
    let truncatedHash := Nat.land (beNat ((hash.drop offset).take 4)) 0x7fffffff
    let code := truncatedHash % 10 ^ digits
    return padStart (Nat.repr code) digits '0'
  else none

/-- The Steam code alphabet. -/
def steamChars : List Char := "23456789BCDFGHJKMNPQRTVWXY".toList

/-- Embeds `OTPGenerator.generateSteamOTP` (`otp-generator.js:185-212`):
HMAC-SHA1 over the same 8 counter bytes, dynamic truncation, then 5
characters emitted least-significant digit first in base 26. -/
def generateSteamOTP (secret : String) (counter : Int) : Option String := do
  let key ← base32ToBuffer secret
  let counterBuffer ← counterBytes counter
  let hash := hmac sha1 64 key counterBuffer
  let offset := Nat.land (hash.getLastD 0) 0xf
  if offset + 4 ≤ hash.length then
    let truncatedHash := Nat.land (beNat ((hash.drop offset).take 4)) 0x7fffffff
    let code := (List.range 5).foldl
      (fun (p : List Char × Nat) _ =>
        (p.1 ++ [steamChars.getD (p.2 % steamChars.length) ' '], p.2 / steamChars.length))
      ([], truncatedHash)
    return ⟨code.1⟩
  else none

/-- The descriptor consumed by the generator (the `otpData` duck-typed
object).  The numeric fields are the nonnegative integers the parser
produces; a `0` (or empty string) models both an absent field and an actual
falsy value, which every use site merges through `||` defaults exactly as
JavaScript does. -/
structure OTPData where
  type : String
  secret : String
  algorithm : String := ""
  digits : Nat := 0
  period : Nat := 0
  counter : Nat := 0
deriving DecidableEq, Repr

/-- JavaScript `x || d` on a number modelled as `Nat` (`0` falsy). -/
def orDefault (n d : Nat) : Nat := if n = 0 then d else n

/-- JavaScript `s || d` on a string (`''` falsy). -/
def orDefaultStr (s d : String) : String := if s = "" then d else s

/-- JavaScript truncating integer conversion of a true division. -/
def jsTruncDiv (a : Int) (b : Nat) : Int := Int.tdiv a b

/-- The result object of `generateTOTP`.  `nextRefresh` is kept in seconds
(the source wraps `… * period * 1000` in a `Date`). -/
structure TOTPResult where
  code : String
  type : String
  timeRemaining : Int
  period : Nat
  counter : Int
  nextRefresh : Int
  valid : Bool
deriving DecidableEq, Repr

/-- Embeds `OTPGenerator.generateTOTP` (`otp-generator.js:46-68`).
`Math.floor(currentTime / period)` is floor division (`Int.fdiv`);
`currentTime % period` is JavaScript's truncating remainder (`Int.tmod`). -/
def generateTOTP (otpData : OTPData) (currentTime : Int) : Option TOTPResult := do
  let period := orDefault otpData.period 30
  let counter := Int.fdiv currentTime period
  let timeRemaining := (period : Int) - Int.tmod currentTime period
  let code ← generateOTPCode otpData.secret counter (orDefault otpData.digits 6)
    (orDefaultStr otpData.algorithm "SHA1") (otpData.type == "hex")
  return { code := code, type := "TOTP", timeRemaining := timeRemaining,
           period := period, counter := counter,
           nextRefresh := (Int.fdiv currentTime period + 1) * period,
           valid := timeRemaining > 0 }

/-- The result object of `generateHOTP`. -/
structure HOTPResult where
  code : String
  type : String
  counter : Nat
  nextCounter : Nat
  note : String
deriving DecidableEq, Repr

/-- Embeds `OTPGenerator.generateHOTP` (`otp-generator.js:75-93`). -/
def generateHOTP (otpData : OTPData) : Option HOTPResult := do
  let counter := otpData.counter
  let code ← generateOTPCode otpData.secret counter (orDefault otpData.digits 6)
    (orDefaultStr otpData.algorithm "SHA1") (otpData.type == "hhex")
  return { code := code, type := "HOTP", counter := counter,
           nextCounter := counter + 1,
           note := "Counter-based codes must be incremented after each use" }

/-- One entry of the `getMultipleCodes` result: the spread of the generation
result plus the loop-added fields, per branch. -/
inductive MultiCode where
  | hotpEntry (result : HOTPResult) (sequence : Nat) (counterValue : Nat)
  | totpEntry (result : TOTPResult) (sequence : Nat) (timeWindow : String)
      (timestamp : Int)
deriving DecidableEq, Repr

/-- The counter recorded in a `getMultipleCodes` entry (`counterValue` for the
HOTP branch, the TOTP result counter otherwise). -/
def MultiCode.counterOf : MultiCode → Int
  | .hotpEntry _ _ cv => cv
  | .totpEntry r _ _ _ => r.counter

/-- Embeds `OTPGenerator.getMultipleCodes` (`otp-generator.js:264-297`).
`now` is the `Math.floor(Date.now() / 1000)` read in the TOTP branch.  The
HOTP branch copies the descriptor (`\x7b ...otpData, counter: … \x7d`) per
iteration; a throw anywhere aborts the whole call (`none`). -/
def getMultipleCodes (otpData : OTPData) (count : Nat) (now : Int) :
    Option (List MultiCode) :=
  if otpData.type == "hotp" || otpData.type == "hhex" then
    (List.range count).mapM (fun i => do
      let hopData := { otpData with counter := otpData.counter + i }
      let result ← generateHOTP hopData
      return MultiCode.hotpEntry result i hopData.counter)
  else
    let period := orDefault otpData.period 30
    (List.range count).mapM (fun (i : Nat) => do
      let adjustedTime := now + (i : Int) * (period : Int)
      let result ← generateTOTP otpData adjustedTime
      return MultiCode.totpEntry result i
        (if i = 0 then "current" else "+" ++ Nat.repr (i * period) ++ "s")
        adjustedTime)

/-- The result object of `verifyCode`; fields absent from a branch's object
literal are `none`. -/
structure VerifyResult where
  valid : Bool
  timeOffset : Option Int := none
  providedCode : String
  expectedCode : String
  timeWindow : Option String := none
  counter : Option Nat := none
deriving DecidableEq, Repr

/-- The scan loop of `verifyCode`'s TOTP branch (`otp-generator.js:322-335`):
first matching offset wins; `some none` means the loop fell through with no
match, outer `none` a thrown error. -/
def verifyScan (otpData : OTPData) (providedCode : String) (now : Int)
    (period : Nat) : List Int → Option (Option VerifyResult)
  | [] => some none
  | i :: rest => do
    let testCode ← generateTOTP otpData (now + i * period)
    if testCode.code == providedCode then
      return some { valid := true, timeOffset := some (i * period),
                    providedCode := providedCode,
                    expectedCode := testCode.code,
                    timeWindow := some (if i = 0 then "current"
                      else if i < 0 then "previous" else "next") }
    else verifyScan otpData providedCode now period rest

/-- Embeds `OTPGenerator.verifyCode` (`otp-generator.js:306-346`); `now` is
the `Math.floor(Date.now() / 1000)` read at entry. -/
def verifyCode (otpData : OTPData) (providedCode : String) (windowSize : Nat)
    (now : Int) : Option VerifyResult :=
  if otpData.type == "hotp" || otpData.type == "hhex" then do
    let current ← generateHOTP otpData
    return { valid := current.code == providedCode,
             counter := some otpData.counter,
             providedCode := providedCode, expectedCode := current.code }
  else do
    let period := orDefault otpData.period 30
    let offsets := (List.range (2 * windowSize + 1)).map
      (fun (j : Nat) => (j : Int) - (windowSize : Int))
    match ← verifyScan otpData providedCode now period offsets with
    | some r => return r
    | none => do
      let current ← generateTOTP otpData now
      return { valid := false, providedCode := providedCode,
               expectedCode := current.code, timeWindow := some "none" }

/-! ## Credential-URI parsing (`src/lib/otp-parser.js`)

Strings are processed as `List Char`.  The JavaScript host builtins the
parser leans on (`String.prototype.split`, `Number`, `decodeURIComponent`)
are modelled below for the input grammar the parser feeds them. -/

/-- JavaScript `str.split(sep)` for a single-character separator. -/
def splitChar (sep : Char) (l : List Char) : List (List Char) :=
  l.foldr
    (fun c acc =>
      match acc with
      | [] => if c = sep then [[], []] else [[c]]
      | g :: gs => if c = sep then [] :: g :: gs else (c :: g) :: gs)
    [[]]

/-- JavaScript `str.split(sep)` for a non-empty multi-character separator
(fuel-structural so the kernel can evaluate it). -/
def splitSeqFuel (sep : List Char) : Nat → List Char → List (List Char)
  | _, [] => [[]]
  | 0, l => [l]
  | fuel + 1, c :: rest =>
    if sep.isPrefixOf (c :: rest) then
      [] :: splitSeqFuel sep fuel ((c :: rest).drop sep.length)
    else
      match splitSeqFuel sep fuel rest with
      | [] => [[c]]
      | g :: gs => (c :: g) :: gs

/-- JavaScript `str.split(sep)` for a non-empty separator string. -/
def splitSeq (sep l : List Char) : List (List Char) := splitSeqFuel sep l.length l

/-- Modelled from the host builtin `Number(string)`, for the grammar
credential URIs use: optional whitespace, optional sign, decimal digits with
an optional fractional part.  `none` models `NaN`; the empty or
all-whitespace string converts to `0`, as in JavaScript.  (Exponent, hex,
and `Infinity` forms are outside the inputs exercised here.) -/
def jsNumberL (l : List Char) : Option ℚ :=
  let t := ((l.dropWhile Char.isWhitespace).reverse.dropWhile
    Char.isWhitespace).reverse
  if t = [] then some 0
  else
    let (sign, body) : ℚ × List Char :=
      match t with
      | '-' :: r => (-1, r)
      | '+' :: r => (1, r)
      | r => (1, r)
    let natVal : List Char → Nat :=
      fun ds => ds.foldl (fun a c => a * 10 + (c.toNat - 48)) 0
    match splitChar '.' body with
    | [ip] =>
      if ip ≠ [] ∧ ip.all Char.isDigit then some (sign * natVal ip) else none
    | [ip, fp] =>
      if (ip ≠ [] ∨ fp ≠ []) ∧ ip.all Char.isDigit ∧ fp.all Char.isDigit then
        some (sign * ((natVal ip : ℚ) + (natVal fp : ℚ) / 10 ^ fp.length))
      else none
    | _ => none

/-- `Number` applied to a possibly-`undefined` query value
(`Number(undefined)` is `NaN`). -/
def jsNumberOpt (v : Option (List Char)) : Option ℚ := v.bind jsNumberL

/-- Modelled from the host builtin `decodeURIComponent`, for ASCII inputs:
decodes `%XY` hex escapes; `none` models a thrown `URIError`.  (Multi-byte
UTF-8 escape sequences are outside the inputs exercised here and also map to
`none`.) -/
def percentDecode : List Char → Option (List Char)
  | [] => some []
  | '%' :: c1 :: c2 :: rest => do
    let h ← hexVal c1
    let l ← hexVal c2
    if 16 * h + l < 0x80 then
      let tail ← percentDecode rest
      return Char.ofNat (16 * h + l) :: tail
    else none
  | '%' :: _ => none
  | c :: rest => do
    let tail ← percentDecode rest
    return c :: tail

/-- JavaScript `x || d` on an optional rational (`undefined`, `NaN`-free by
construction, and `0` are falsy). -/
def jsOrQ (o : Option ℚ) (d : ℚ) : ℚ :=
  match o with
  | none => d
  | some q => if q = 0 then d else q

/-- JavaScript `s || d` on an optional string (`undefined` and `''` falsy). -/
def jsOrStr (o : Option (List Char)) (d : List Char) : List Char :=
  match o with
  | none => d
  | some [] => d
  | some l => l

/-- Character class of `/^[0-9a-f]+$/i`. -/
def isHexChar (c : Char) : Bool :=
  ('0' ≤ c ∧ c ≤ '9') ∨ ('a' ≤ c ∧ c ≤ 'f') ∨ ('A' ≤ c ∧ c ≤ 'F')

/-- Character class of `[2-7a-z]` under `/i`. -/
def isB32Char (c : Char) : Bool :=
  ('2' ≤ c ∧ c ≤ '7') ∨ ('a' ≤ c ∧ c ≤ 'z') ∨ ('A' ≤ c ∧ c ≤ 'Z')

/-- Test of `/^[0-9a-f]+$/i`. -/
def hexShape (l : List Char) : Bool := l ≠ [] ∧ l.all isHexChar

/-- Test of `/^[2-7a-z]+=*$/i`: one or more alphabet characters followed by
any number of `=`. -/
def b32Shape (l : List Char) : Bool :=
  let core := l.takeWhile isB32Char
  core ≠ [] ∧ (l.drop core.length).all (fun c => c = '=')

/-- The JavaScript truncating remainder `x % y`; `none` models `NaN`
(division by zero). -/
def jsRem (x y : ℚ) : Option ℚ :=
  if y = 0 then none
  else some (x - y * ((if 0 ≤ x / y then Int.floor (x / y) else Int.ceil (x / y) : Int) : ℚ))

/-- Embeds the `period` normalization (`otp-parser.js:125-130`):
`isNaN(period) || period < 0 || period > 60 || 60 % period !== 0` makes the
variable `undefined` (note `60 % 0` is `NaN`, which is `!== 0`). -/
def periodNorm (p : Option ℚ) : Option ℚ :=
  match p with
  | none => none
  | some q =>
    if q < 0 then none
    else if 60 < q then none
    else if jsRem 60 q ≠ some 0 then none
    else some q

/-- Embeds the `digits` normalization (`otp-parser.js:131-133`):
`isNaN(digits) || digits === 0 ? 6 : digits`. -/
def digitsNorm (d : Option ℚ) : ℚ :=
  match d with
  | none => 6
  | some q => if q = 0 then 6 else q

/-- Embeds the `counter` normalization (`otp-parser.js:121-123`):
`isNaN(counter) || counter < 0 ? 0 : counter`. -/
def counterNorm (c : Option ℚ) : ℚ :=
  match c with
  | none => 0
  | some q => if q < 0 then 0 else q

/-- The descriptor's `period` field as finally stored
(`period: period || 30`, `otp-parser.js:190`) for a given `period` query
value (`none` = `NaN`). -/
def periodOfQuery (p : Option ℚ) : ℚ := jsOrQ (periodNorm p) 30

/-- The descriptor's `digits` field as finally stored
(`digits: digits || 6`, `otp-parser.js:189`) for a given `digits` query
value (`none` = `NaN`). -/
def digitsOfQuery (d : Option ℚ) : ℚ := jsOrQ (some (digitsNorm d)) 6

/-- The mutable locals of the `parameters.forEach` loop
(`otp-parser.js:98-139`); `none` is an `undefined` variable.  `issuer`
starts out holding the label-derived issuer. -/
structure QState where
  secret : Option (List Char)
  issuer : Option (List Char)
  algorithm : Option (List Char)
  period : Option ℚ
  digits : Option ℚ
  counter : Option ℚ
deriving DecidableEq, Repr

/-- Embeds one iteration of the `parameters.forEach` switch
(`otp-parser.js:104-139`).  `Except.error` models a thrown `TypeError`
(`undefined.toUpperCase()` when `algorithm` has no `=`), which the outer
catch turns into a `null` parse. -/
def applyParam (st : QState) (item : List Char) : Except Unit QState :=
  let parts := splitChar '=' item
  let key := (parts.getD 0 []).map Char.toLower
  let value : Option (List Char) := parts.get? 1
  if key = "secret".toList then .ok { st with secret := value }
  else if key = "issuer".toList then
    -- `decodeURIComponent(undefined)` coerces to the string `"undefined"`
    let vs := value.getD "undefined".toList
    let dec := match percentDecode vs with | some d => d | none => vs
    .ok { st with issuer := some (dec.map (fun c => if c = '+' then ' ' else c)) }
  else if key = "counter".toList then
    .ok { st with counter := some (counterNorm (jsNumberOpt value)) }
  else if key = "period".toList then
    .ok { st with period := periodNorm (jsNumberOpt value) }
  else if key = "digits".toList then
    .ok { st with digits := some (digitsNorm (jsNumberOpt value)) }
  else if key = "algorithm".toList then
    match value with
    | none => .error ()
    | some v => .ok { st with algorithm := some (v.map Char.toUpper) }
  else .ok st

/-- A parsed descriptor (`otp-parser.js:182-195`).  The `hash` field — a
fresh `uuidv4()` per parse, a cosmetic correlation identifier — is omitted
from the model. -/
structure ParsedOTP where
  type : String
  label : String
  issuer : String
  account : String
  secret : String
  algorithm : String
  digits : ℚ
  period : ℚ
  counter : ℚ
  originalUrl : String
  valid : Bool
deriving DecidableEq, Repr

/-- What `parseOTPAuth` / `parseStandardOTPUrl` can return: a descriptor, the
`Invalid secret format` diagnostic object (`otp-parser.js:148-152`), the
migration placeholder object (`otp-parser.js:215-222`), or `null`. -/
inductive ParseResult where
  | ok (d : ParsedOTP)
  | secretFormatError (secret : String) (originalUrl : String)
  | migration (originalUrl : String)
  | null
deriving DecidableEq, Repr

/-- Embeds the vendor-override handling (`otp-parser.js:164-179`): a secret
prefixed `blz-`/`bliz-` is stripped and forces type `battle`, then one
prefixed `stm-` (after any Battle strip) is stripped and forces type
`steam`; anything else passes through. -/
def vendorOverride (secret ty : List Char) : List Char × List Char :=
  let (secret1, type1) :=
    if "blz-".toList.isPrefixOf secret then (secret.drop 4, "battle".toList)
    else if "bliz-".toList.isPrefixOf secret then (secret.drop 5, "battle".toList)
    else (secret, ty)
  if "stm-".toList.isPrefixOf secret1 then (secret1.drop 4, "steam".toList)
  else (secret1, type1)

/-- Embeds `parseStandardOTPUrl` (`otp-parser.js:59-203`) up to its outer
try/catch; `Except.error` is an uncaught exception. -/
def parseStandardOTPUrlE (otpUrl : List Char) : Except Unit ParseResult := do
  let uri := (splitSeq "otpauth://".toList otpUrl).getD 1 []
  if uri = [] then return .null
  let type0 := (uri.take 4).map Char.toLower
  let uri := uri.drop 5
  let segs := splitChar '?' uri
  let label0 := segs.getD 0 []
  let parameterPart := segs.getD 1 []
  if label0 = [] ∨ parameterPart = [] then return .null
  -- `decodeURIComponent` failure is caught and only logged
  let label := match percentDecode label0 with | some d => d | none => label0
  let (issuer0, account0) : Option (List Char) × Option (List Char) :=
    if label.contains ':' then
      (some ((splitChar ':' label).getD 0 []), some ((splitChar ':' label).getD 1 []))
    else (none, some label)
  let st ← (splitChar '&' parameterPart).foldlM applyParam
    { secret := some [], issuer := issuer0, algorithm := none,
      period := none, digits := none, counter := none }
  -- `if (!secret) return null`
  if st.secret = none ∨ st.secret = some [] then return .null
  let secret := st.secret.getD []
  if ¬hexShape secret ∧ ¬b32Shape secret then
    return .secretFormatError ⟨secret⟩ ⟨otpUrl⟩
  -- hex-shaped but not Base32-shaped promotes totp/hotp to hex/hhex
  let type1 :=
    if ¬b32Shape secret ∧ hexShape secret then
      if type0 = "totp".toList then "hex".toList
      else if type0 = "hotp".toList then "hhex".toList
      else type0
    else type0
  -- vendor overrides: /^(blz-|bliz-)/ then /^stm-/
  let (secret2, type3) := vendorOverride secret type1
  return .ok {
    type := ⟨type3⟩, label := ⟨label⟩,
    issuer := ⟨jsOrStr st.issuer []⟩,
    account := ⟨jsOrStr account0 []⟩,
    secret := ⟨secret2⟩,
    algorithm := ⟨jsOrStr st.algorithm "SHA1".toList⟩,
    digits := jsOrQ st.digits 6,
    period := jsOrQ st.period 30,
    counter := jsOrQ st.counter 0,
    originalUrl := ⟨otpUrl⟩, valid := true }

/-- Embeds `parseStandardOTPUrl` with its outer try/catch (a thrown error
yields `null`, `otp-parser.js:199-202`). -/
def parseStandardOTPUrl (otpUrl : String) : ParseResult :=
  match parseStandardOTPUrlE otpUrl.toList with
  | .ok r => r
  | .error _ => .null

/-- Embeds `parseOTPAuth` (`otp-parser.js:31-52`): migration URLs get the
placeholder result (`valid steps skipped`), `otpauth://` URLs go to the
standard parser, anything else is `null`. -/
def parseOTPAuth (otpUrl : String) : ParseResult :=
  if "otpauth-migration://".toList.isPrefixOf otpUrl.toList then .migration otpUrl
  else if "otpauth://".toList.isPrefixOf otpUrl.toList then parseStandardOTPUrl otpUrl
  else .null

/-! ## Image-decode pipeline (`src/services/qr-service-optimized.js`)

The 2D-barcode decoder (`jsQR` behind `extractQRFromJimp`) is an external
collaborator consuming a pixel buffer; following §6 of the design it is
modelled by its outcomes: one `Option String` per preprocessing transform,
in the order the code tries them, `none` meaning "no decode" (which also
covers a per-attempt exception, caught and skipped by the loop). -/

/-- The failure/success shapes of the scan entry points. -/
inductive ScanResult where
  /-- `success: true` with the parsed data and the raw decoded text. -/
  | success (data : ParseResult) (qrData : String)
  /-- `INVALID_QR_DATA` / `INVALID_OTP_DATA`: decoded text failed parsing;
  carries the raw text. -/
  | invalidQRData (qrData : String)
  /-- `NO_QR_FOUND`: every transform attempt came back empty. -/
  | noQRFound
deriving DecidableEq, Repr

/-- Embeds `QRService.processJimpImage` (`qr-service-optimized.js:436-536`):
iterate the transform attempts in order, keep the first decoded text, then
parse it — a `null` parse is the `INVALID_QR_DATA` failure, no decode at all
is `NO_QR_FOUND`. -/
def processJimpImage (attempts : List (Option String)) : ScanResult :=
  match attempts.findSome? (fun x => x) with
  | none => .noQRFound
  | some qrData =>
    match parseOTPAuth qrData with
    | .null => .invalidQRData qrData
    | r => .success r qrData

/-- Embeds `QRServiceOptimized.fastQRScan` (`qr-service-optimized.js:122-187`):
the same first-decode-wins chain over its three attempts (optimized,
inverted, high-contrast), each hit handed to `processQRResult`, whose `null`
parse is the `INVALID_OTP_DATA` failure. -/
def fastQRScan (optimized inverted highContrast : Option String) : ScanResult :=
  match optimized <|> inverted <|> highContrast with
  | none => .noQRFound
  | some qrData =>
    match parseOTPAuth qrData with
    | .null => .invalidQRData qrData
    | r => .success r qrData

/-- The descriptor of a successful parse, if any. -/
def ParseResult.descriptor? : ParseResult → Option ParsedOTP
  | .ok d => some d
  | _ => none

/-! ## Supporting lemmas -/

/-- Spec-side reference for `decodeHex` (§4.1 of the design): the numeric
value of a hex digit string, for stating that decoding preserves the value
(in particular under the odd-length zero-nibble left pad). -/
def specHexValue (l : List Char) : Nat :=
  l.foldl (fun a c => 16 * a + (hexVal c).getD 0) 0

theorem hexPairs_value : ∀ (l : List Char), (∀ c ∈ l, (hexVal c).isSome) →
    l.length % 2 = 0 → ∀ a : Nat,
    (hexPairs l).foldl (fun x b => x * 256 + b) a
      = l.foldl (fun x c => 16 * x + (hexVal c).getD 0) a
  | [] => by intro _ _ a; simp [hexPairs]
  | [c] => by intro _ he; simp at he
  | c1 :: c2 :: rest => by
    intro hv he a
    obtain ⟨h1, hh1⟩ := Option.isSome_iff_exists.mp (hv c1 (by simp))
    obtain ⟨h2, hh2⟩ := Option.isSome_iff_exists.mp (hv c2 (by simp))
    have he' : rest.length % 2 = 0 := by simp [List.length_cons] at he; omega
    have ih := hexPairs_value rest (fun c hc => hv c (by simp [hc])) he'
    simp only [hexPairs, hh1, hh2, List.foldl_cons, Option.getD_some]
    rw [ih]
    congr 1
    ring

theorem hexPairs_length : ∀ (l : List Char), (∀ c ∈ l, (hexVal c).isSome) →
    l.length % 2 = 0 → (hexPairs l).length = l.length / 2
  | [] => by intro _ _; simp [hexPairs]
  | [c] => by intro _ he; simp at he
  | c1 :: c2 :: rest => by
    intro hv he
    obtain ⟨h1, hh1⟩ := Option.isSome_iff_exists.mp (hv c1 (by simp))
    obtain ⟨h2, hh2⟩ := Option.isSome_iff_exists.mp (hv c2 (by simp))
    have he' : rest.length % 2 = 0 := by simp [List.length_cons] at he; omega
    have ih := hexPairs_length rest (fun c hc => hv c (by simp [hc])) he'
    simp only [hexPairs, hh1, hh2, List.length_cons, ih]
    omega

theorem hexPairs_short : ∀ (l : List Char), l.length % 2 = 0 →
    (∃ c ∈ l, hexVal c = none) → (hexPairs l).length < l.length / 2
  | [] => by rintro _ ⟨c, hc, -⟩; simp at hc
  | [c] => by intro he _; simp at he
  | c1 :: c2 :: rest => by
    rintro he ⟨c, hc, hval⟩
    have he' : rest.length % 2 = 0 := by simp [List.length_cons] at he; omega
    cases hh1 : hexVal c1 with
    | none => simp [hexPairs, hh1, List.length_cons]; omega
    | some h1 =>
      cases hh2 : hexVal c2 with
      | none => simp [hexPairs, hh1, hh2, List.length_cons]; omega
      | some h2 =>
        have hcc : c = c1 ∨ c = c2 ∨ c ∈ rest := by simpa using hc
        have hcr : c ∈ rest := by
          rcases hcc with h | h | h
          · rw [h, hh1] at hval; cases hval
          · rw [h, hh2] at hval; cases hval
          · exact h
        have ih := hexPairs_short rest he' ⟨c, hcr, hval⟩
        simp only [hexPairs, hh1, hh2, List.length_cons]
        omega

/-! ## Claims -/

/-- C1: for the secret whose hex encoding is
`3132333435363738393031323334353637383930` (ASCII "12345678901234567890"),
`generateOTPCode` with `digits = 6`, algorithm SHA1 and hex decoding yields
`"755224"` at counter 0 and `"287082"` at counter 1, via the RFC 4226
dynamic-truncation procedure; the hex decode yields exactly the 20 ASCII
bytes of "12345678901234567890". -/
theorem rfc4226_test_vector :
    generateOTPCode "3132333435363738393031323334353637383930" 0 6 "SHA1" true
      = some "755224" ∧
    generateOTPCode "3132333435363738393031323334353637383930" 1 6 "SHA1" true
      = some "287082" ∧
    hexToBuffer "3132333435363738393031323334353637383930"
      = [49, 50, 51, 52, 53, 54, 55, 56, 57, 48,
         49, 50, 51, 52, 53, 54, 55, 56, 57, 48] :=
  ⟨by decide, by decide, by decide⟩

/-- C3 counterexample: at counter `2^32` (an unsigned counter value below
`2^64`) generation does not succeed: `writeUInt32BE` throws, modelled as
`none` — refuting that counters at and above `2^32` are handled. -/
theorem counter_2pow32_throws :
    generateOTPCode "GEZDGNBVGY3TQOJQGEZDGNBVGY3TQOJQ" (2 ^ 32) 6 "SHA1" false
      = none := by decide

/-- C3 amended: counters are handled with 32-bit, not 64-bit, range.  Below
`2^32` the 8 counter bytes are the exact big-endian representation (the high
word is genuinely zero there); at and above `2^32` code generation fails
with a `RangeError` for every secret, digit count and algorithm. -/
theorem counter_encoding_32bit (c : Int) :
    (0 ≤ c → c < 2 ^ 32 → counterBytes c = some (beBytes 8 c.toNat)) ∧
    (2 ^ 32 ≤ c → ∀ secret digits algorithm isHex,
      generateOTPCode secret c digits algorithm isHex = none) := by
  constructor
  · intro h0 h32
    have hn : c.toNat < 2 ^ 32 := by omega
    simp only [counterBytes, if_pos (And.intro h0 h32)]
    congr 1
    show beBytes 4 0 ++ beBytes 4 c.toNat = beBytes 8 c.toNat
    simp [beBytes, List.range_succ]
    omega
  · intro hge secret digits algorithm isHex
    have hcb : counterBytes c = none := by
      rw [counterBytes, if_neg]
      rintro ⟨-, hlt⟩
      omega
    rw [generateOTPCode]
    cases isHex with
    | true => simp [hcb]
    | false =>
      cases hkey : base32ToBuffer secret with
      | none => simp [hkey]
      | some key => simp [hkey, hcb]

/-- C3 witness: the exact encoding at counter 5 and the failure at `2^32`. -/
theorem counter_encoding_32bit_witness :
    counterBytes 5 = some (beBytes 8 (5 : Int).toNat) ∧
    generateOTPCode "JBSWY3DPEHPK3PXP" (2 ^ 32) 6 "SHA1" false = none :=
  ⟨(counter_encoding_32bit 5).1 (by norm_num) (by norm_num),
   (counter_encoding_32bit (2 ^ 32)).2 le_rfl _ _ _ _⟩

/-- C7 counterexample: on inputs with non-hex characters `hexToBuffer`
produces a (possibly empty) byte list instead of failing: `Buffer.from(·,
'hex')` never throws an `InvalidSecretEncoding` (or any) error — it decodes
`"zz"` to no bytes and `"12zz34"` to the single byte `0x12`. -/
theorem hex_invalid_silent :
    hexToBuffer "zz" = [] ∧ hexToBuffer "12zz34" = [0x12] := ⟨by decide, by decide⟩

/-- C7 amended: `hexToBuffer` left-pads one zero nibble on odd length — on
all-hex input the decoded bytes carry exactly the numeric value of the hex
string, `⌈length/2⌉` bytes of it; on input with any non-hex character it
does not raise an error but silently truncates, yielding strictly fewer
bytes (it is total by construction). -/
theorem hexToBuffer_spec (s : String) :
    (s.toList.all (fun c => (hexVal c).isSome) →
      beNat (hexToBuffer s) = specHexValue s.toList ∧
      (hexToBuffer s).length = (s.length + 1) / 2) ∧
    ((∃ c ∈ s.toList, hexVal c = none) →
      (hexToBuffer s).length < (s.length + 1) / 2) := by
  have hlen : s.length = s.toList.length := rfl
  constructor
  · intro hall
    rw [List.all_eq_true] at hall
    replace hall : ∀ c ∈ s.toList, (hexVal c).isSome := fun c hc => hall c hc
    by_cases hodd : s.length % 2 = 0
    · have hb : hexToBuffer s = hexPairs s.toList := by
        simp [hexToBuffer, hodd]
      rw [hb]
      refine ⟨hexPairs_value s.toList hall (by omega) 0, ?_⟩
      rw [hexPairs_length s.toList hall (by omega)]
      omega
    · have hb : hexToBuffer s = hexPairs ('0' :: s.toList) := by
        simp [hexToBuffer, hodd]
      have hall' : ∀ c ∈ '0' :: s.toList, (hexVal c).isSome := by
        intro c hc
        have hcc : c = '0' ∨ c ∈ s.toList := by simpa using hc
        rcases hcc with rfl | h
        · decide
        · exact hall c h
      have hev : ('0' :: s.toList).length % 2 = 0 := by
        simp only [List.length_cons]
        omega
      rw [hb]
      constructor
      · have hv0 : (hexVal '0').getD 0 = 0 := by decide
        have hval := hexPairs_value ('0' :: s.toList) hall' hev 0
        rw [beNat, hval, List.foldl_cons, hv0]
        simp [specHexValue]
      · rw [hexPairs_length ('0' :: s.toList) hall' hev, List.length_cons]
        omega
  · rintro ⟨c, hc, hval⟩
    by_cases hodd : s.length % 2 = 0
    · have hb : hexToBuffer s = hexPairs s.toList := by
        simp [hexToBuffer, hodd]
      rw [hb]
      have := hexPairs_short s.toList (by omega) ⟨c, hc, hval⟩
      omega
    · have hb : hexToBuffer s = hexPairs ('0' :: s.toList) := by
        simp [hexToBuffer, hodd]
      rw [hb]
      have hev : ('0' :: s.toList).length % 2 = 0 := by
        simp only [List.length_cons]
        omega
      have := hexPairs_short ('0' :: s.toList) hev
        ⟨c, List.mem_cons_of_mem _ hc, hval⟩
      simp only [List.length_cons] at this
      omega

/-- C7 witness: full decode of `"abc"` (odd length, zero-nibble pad) and
strict truncation on `"0z12"`. -/
theorem hexToBuffer_spec_witness :
    (beNat (hexToBuffer "abc") = specHexValue "abc".toList ∧
      (hexToBuffer "abc").length = 2) ∧
    (hexToBuffer "0z12").length < 2 :=
  ⟨(hexToBuffer_spec "abc").1 (by decide),
   (hexToBuffer_spec "0z12").2 ⟨'z', by decide, by decide⟩⟩

/-- Any secret that survives the format validation (`otp-parser.js:147`) —
hex-shaped or Base32-shaped — contains no `-`. -/
theorem shape_no_dash (s : List Char)
    (h : hexShape s = true ∨ b32Shape s = true) : '-' ∉ s := by
  intro hd
  rcases h with h | h
  · simp only [hexShape, decide_eq_true_eq] at h
    rw [List.all_eq_true] at h
    have := h.2 '-' hd
    exact absurd this (by decide)
  · simp only [b32Shape, decide_eq_true_eq] at h
    rw [List.all_eq_true] at h
    have hsplit := List.takeWhile_append_dropWhile isB32Char s
    have hdw : s.drop (s.takeWhile isB32Char).length = s.dropWhile isB32Char := by
      nth_rewrite 2 [← hsplit]
      exact List.drop_left _ _
    rw [← hsplit] at hd
    rcases List.mem_append.mp hd with hm | hm
    · exact absurd (List.mem_takeWhile_imp hm) (by decide)
    · have := h.2 '-' (by rw [hdw]; exact hm)
      exact absurd this (by decide)

/-- The vendor-override block (`otp-parser.js:164-179`) is dead code: it runs
only after the secret-format validation, and every prefix it looks for
(`blz-`, `bliz-`, `stm-`) contains a `-`, which no validated secret can
contain — so it always passes secret and type through unchanged. -/
theorem vendorOverride_id (s t : List Char)
    (h : hexShape s = true ∨ b32Shape s = true) :
    vendorOverride s t = (s, t) := by
  have hnd : '-' ∉ s := shape_no_dash s h
  have hblz : ¬("blz-".toList.isPrefixOf s = true) := fun hp =>
    hnd ((List.isPrefixOf_iff_prefix.mp hp).subset (by decide))
  have hbliz : ¬("bliz-".toList.isPrefixOf s = true) := fun hp =>
    hnd ((List.isPrefixOf_iff_prefix.mp hp).subset (by decide))
  have hstm : ¬("stm-".toList.isPrefixOf s = true) := fun hp =>
    hnd ((List.isPrefixOf_iff_prefix.mp hp).subset (by decide))
  rw [vendorOverride]
  simp only [if_neg hblz, if_neg hbliz, if_neg hstm]

/-- C2 (code bug): a secret query value starting `stm-` never yields a Steam
descriptor — the `-` makes it fail the secret-format validation first, so
both the `totp` and the `hotp` form return the `Invalid secret format`
diagnostic object instead of a valid descriptor; the Steam vendor-override
branch is unreachable (`vendorOverride_id`). -/
theorem stm_secret_rejected :
    parseOTPAuth "otpauth://totp/Example?secret=stm-ABCDEFGH"
      = ParseResult.secretFormatError "stm-ABCDEFGH"
          "otpauth://totp/Example?secret=stm-ABCDEFGH" ∧
    parseOTPAuth "otpauth://hotp/Example?secret=stm-ABCDEFGH"
      = ParseResult.secretFormatError "stm-ABCDEFGH"
          "otpauth://hotp/Example?secret=stm-ABCDEFGH" := ⟨by decide, by decide⟩

/-- C4: the stored `period` equals the `period` query value exactly when
that value is non-negative, at most 60 and an exact divisor of 60 (in the
JavaScript sense `60 % q === 0`, so e.g. `7.5` qualifies); otherwise —
negative, above 60, a non-divisor like 45 or 90, zero, or `NaN` — it falls
back to 30. -/
theorem period_query_normalization (q : ℚ) :
    (0 ≤ q ∧ q ≤ 60 ∧ (∃ n : ℕ, (n : ℚ) * q = 60) → periodOfQuery (some q) = q) ∧
    (¬(0 ≤ q ∧ q ≤ 60 ∧ (∃ n : ℕ, (n : ℚ) * q = 60)) → periodOfQuery (some q) = 30) ∧
    periodOfQuery none = 30 := by
  refine ⟨?_, ?_, rfl⟩
  · rintro ⟨h0, h60, n, hn⟩
    have hq0 : q ≠ 0 := by
      rintro rfl
      simp at hn
    have hdiv : (60 : ℚ) / q = n := by
      rw [div_eq_iff hq0]
      linarith
    have hrem : jsRem 60 q = some 0 := by
      rw [jsRem, if_neg hq0]
      congr 1
      rw [hdiv, if_pos (by positivity), Int.floor_natCast]
      push_cast
      linarith
    rw [periodOfQuery]
    simp only [periodNorm, if_neg (not_lt.mpr h0), if_neg (not_lt.mpr h60)]
    rw [if_neg (by simp [hrem])]
    simp [jsOrQ, hq0]
  · intro hinv
    by_cases hneg : q < 0
    · rw [periodOfQuery]
      simp only [periodNorm, if_pos hneg]
      rfl
    · by_cases hbig : 60 < q
      · rw [periodOfQuery]
        simp only [periodNorm, if_neg hneg, if_pos hbig]
        rfl
      · by_cases hq0 : q = 0
        · subst hq0
          rw [periodOfQuery]
          simp only [periodNorm, jsRem]
          simp [jsOrQ]
        · have hqpos : 0 < q := lt_of_le_of_ne (not_lt.mp hneg) (Ne.symm hq0)
          have hnn : (0 : ℚ) ≤ 60 / q := by positivity
          have hr : (60 : ℚ) - q * ((⌊(60 : ℚ) / q⌋ : ℤ) : ℚ) ≠ 0 := by
            intro he
            apply hinv
            have hfl : (0 : ℤ) ≤ ⌊(60 : ℚ) / q⌋ := Int.floor_nonneg.mpr hnn
            refine ⟨not_lt.mp hneg, not_lt.mp hbig, ⌊(60 : ℚ) / q⌋.toNat, ?_⟩
            have hcast : ((⌊(60 : ℚ) / q⌋.toNat : ℕ) : ℚ) = ((⌊(60 : ℚ) / q⌋ : ℤ) : ℚ) := by
              norm_cast
              exact Int.toNat_of_nonneg hfl
            rw [hcast]
            linarith
          have hrem : jsRem 60 q ≠ some 0 := by
            rw [jsRem, if_neg hq0, if_pos hnn]
            intro hcon
            exact hr (by injection hcon)
          rw [periodOfQuery]
          simp only [periodNorm, if_neg hneg, if_neg hbig, if_pos hrem]
          rfl

/-- C4 witness: `period=15` is kept, `period=45` falls back to 30. -/
theorem period_query_normalization_witness :
    periodOfQuery (some 15) = 15 ∧ periodOfQuery (some 45) = 30 :=
  ⟨(period_query_normalization 15).1 ⟨by norm_num, by norm_num, 4, by norm_num⟩,
   (period_query_normalization 45).2.1 (by
      rintro ⟨-, -, n, hn⟩
      have hn' : (n * 45 : ℕ) = 60 := by exact_mod_cast hn
      omega)⟩

/-- C5 counterexample: the URI `otpauth://totp/A?secret=…&digits=3` parses
successfully (`valid = true`) with `digits = 3`, which lies outside
`[4, 10]` — the normalization does not clamp into that interval. -/
theorem digits_three_valid_descriptor :
    (parseOTPAuth "otpauth://totp/A?secret=JBSWY3DPEHPK3PXP&digits=3").descriptor?.map
        (fun d => (d.valid, d.digits)) = some (true, 3) ∧ (3 : ℚ) < 4 :=
  ⟨by decide, by norm_num⟩

/-- C5 amended: `digits` is only defaulted, never clamped: a `NaN` or `0`
query value becomes 6, and any other numeric value — including values
outside `[4, 10]`, such as 11 — is stored verbatim in a valid descriptor. -/
theorem digits_preserved_verbatim (q : ℚ) :
    (q ≠ 0 → digitsOfQuery (some q) = q) ∧
    digitsOfQuery none = 6 ∧
    (parseOTPAuth "otpauth://totp/A?secret=JBSWY3DPEHPK3PXP&digits=11").descriptor?.map
        ParsedOTP.digits = some 11 := by
  refine ⟨?_, rfl, by decide⟩
  intro hq
  simp [digitsOfQuery, digitsNorm, jsOrQ, hq]

/-- C5 witness: `digits=7` is stored verbatim; an absent value defaults. -/
theorem digits_preserved_verbatim_witness :
    digitsOfQuery (some 7) = 7 ∧ digitsOfQuery none = 6 :=
  ⟨(digits_preserved_verbatim 7).1 (by norm_num), (digits_preserved_verbatim 7).2.1⟩

theorem findSome?_id_none (l : List (Option String)) (h : ∀ x ∈ l, x = none) :
    l.findSome? (fun x => x) = none := by
  induction l with
  | nil => rfl
  | cons a t ih =>
    rw [List.findSome?_cons, h a (by simp)]
    exact ih (fun x hx => h x (by simp [hx]))

/-- C6 counterexample: decoded text without an `otpauth` prefix terminates
the transform search — the second transform would decode a perfectly valid
credential URI, but the loop stops at the first decoded text `"hello"` and
reports `INVALID_QR_DATA` (not `NO_QR_FOUND`, and not the later success). -/
theorem first_decode_stops_search :
    processJimpImage [some "hello", some "otpauth://totp/A?secret=JBSWY3DPEHPK3PXP"]
      = ScanResult.invalidQRData "hello" := by decide

/-- C6 amended: a transform attempt counts as a success as soon as the
barcode decode returns any text — the prefix is not consulted: the first
decoded text stops the search regardless of what later transforms would
yield, and its parse decides the outcome (`INVALID_QR_DATA` carrying the
raw text on a failed parse).  `NO_QR_FOUND` arises exactly when no
transform decodes any text. -/
theorem transform_search_first_text (pre : List (Option String)) (s : String)
    (rest : List (Option String)) (hpre : ∀ x ∈ pre, x = none) :
    processJimpImage (pre ++ some s :: rest)
      = (match parseOTPAuth s with
         | ParseResult.null => ScanResult.invalidQRData s
         | r => ScanResult.success r s) ∧
    processJimpImage pre = ScanResult.noQRFound := by
  constructor
  · rw [processJimpImage, List.findSome?_append, findSome?_id_none pre hpre,
      List.findSome?_cons]
    rfl
  · rw [processJimpImage, findSome?_id_none pre hpre]

/-- C6 witness: with the first transform decoding nothing, the second's text
decides the outcome and a trailing transform is never consulted; an
all-empty attempt list yields `NO_QR_FOUND`. -/
theorem transform_search_first_text_witness :
    processJimpImage [none, some "otpauth://totp/A?secret=JBSWY3DPEHPK3PXP",
        some "ignored"]
      = (match parseOTPAuth "otpauth://totp/A?secret=JBSWY3DPEHPK3PXP" with
         | ParseResult.null =>
            ScanResult.invalidQRData "otpauth://totp/A?secret=JBSWY3DPEHPK3PXP"
         | r => ScanResult.success r "otpauth://totp/A?secret=JBSWY3DPEHPK3PXP") ∧
    processJimpImage [none] = ScanResult.noQRFound :=
  transform_search_first_text [none] "otpauth://totp/A?secret=JBSWY3DPEHPK3PXP"
    [some "ignored"] (by decide)

theorem mapM_option_spec {α β : Type} (f : α → Option β) :
    ∀ (l : List α) (out : List β), l.mapM f = some out →
      out.length = l.length ∧
      ∀ i (h1 : i < l.length) (h2 : i < out.length),
        f (l.get ⟨i, h1⟩) = some (out.get ⟨i, h2⟩)
  | [], out => by
    intro h
    rw [List.mapM_nil] at h
    obtain rfl : ([] : List β) = out := by simpa using h
    exact ⟨rfl, fun i h1 _ => absurd h1 (by simp)⟩
  | a :: t, out => by
    intro h
    rw [List.mapM_cons] at h
    cases hfa : f a with
    | none => rw [hfa] at h; simp at h
    | some b =>
      rw [hfa] at h
      cases hmt : t.mapM f with
      | none => rw [hmt] at h; simp at h
      | some bs =>
        rw [hmt] at h
        obtain rfl : b :: bs = out := by simpa using h
        obtain ⟨ihlen, ihpt⟩ := mapM_option_spec f t bs hmt
        refine ⟨by simp [ihlen], ?_⟩
        intro i h1 h2
        cases i with
        | zero => simpa using hfa
        | succ j =>
          have := ihpt j (by simpa using h1) (by simpa using h2)
          simpa using this

/-- C8: for every HOTP-family descriptor, `getMultipleCodes` (when it
succeeds) returns exactly `count` entries, with entry `i` carrying counter
`descriptor.counter + i` — index 0 is the current counter — in strictly
increasing order; the descriptor is copied per iteration, never mutated
(the embedding is a pure function of it). -/
theorem multiple_codes_hotp_counters (d : OTPData) (count : Nat) (now : Int)
    (hT : d.type = "hotp" ∨ d.type = "hhex")
    (l : List MultiCode) (h : getMultipleCodes d count now = some l) :
    l.length = count ∧
    (∀ i (hi : i < l.length), (l.get ⟨i, hi⟩).counterOf = (d.counter : Int) + i) ∧
    (∀ i (hi : i + 1 < l.length),
      (l.get ⟨i, by omega⟩).counterOf < (l.get ⟨i + 1, hi⟩).counterOf) := by
  have hb : (d.type == "hotp" || d.type == "hhex") = true := by
    rcases hT with h' | h' <;> simp [h']
  rw [getMultipleCodes, if_pos hb] at h
  obtain ⟨hlen, hpt⟩ := mapM_option_spec _ (List.range count) l h
  rw [List.length_range] at hlen
  have hform : ∀ i (hi : i < l.length),
      (l.get ⟨i, hi⟩).counterOf = (d.counter : Int) + i := by
    intro i hi
    have h1 : i < (List.range count).length := by
      rw [List.length_range]; omega
    have hstep := hpt i h1 hi
    rw [List.get_range] at hstep
    simp only at hstep
    cases hg : generateHOTP { d with counter := d.counter + i } with
    | none => rw [hg] at hstep; simp at hstep
    | some res =>
      rw [hg] at hstep
      have heq : MultiCode.hotpEntry res i (d.counter + i) = l.get ⟨i, hi⟩ := by
        simpa using hstep
      rw [← heq]
      simp [MultiCode.counterOf]
  refine ⟨hlen, hform, ?_⟩
  intro i hi
  rw [hform i (by omega), hform (i + 1) hi]
  omega

/-- C8 witness: an HOTP descriptor with counter 10 and `count = 3` produces
exactly the counters 10, 11, 12. -/
theorem multiple_codes_hotp_counters_witness :
    ∃ l, getMultipleCodes ⟨"hotp", "JBSWY3DPEHPK3PXP", "", 0, 0, 10⟩ 3 0 = some l ∧
      l.length = 3 ∧
      (∀ i (hi : i < l.length),
        (l.get ⟨i, hi⟩).counterOf = ((10 : Nat) : Int) + i) := by
  have h : getMultipleCodes ⟨"hotp", "JBSWY3DPEHPK3PXP", "", 0, 0, 10⟩ 3 0
      = some [MultiCode.hotpEntry
          ⟨"930313", "HOTP", 10, 11,
            "Counter-based codes must be incremented after each use"⟩ 0 10,
        MultiCode.hotpEntry
          ⟨"288090", "HOTP", 11, 12,
            "Counter-based codes must be incremented after each use"⟩ 1 11,
        MultiCode.hotpEntry
          ⟨"286296", "HOTP", 12, 13,
            "Counter-based codes must be incremented after each use"⟩ 2 12] := by
    decide
  have hspec := multiple_codes_hotp_counters _ 3 0 (Or.inl rfl) _ h
  exact ⟨_, h, hspec.1, hspec.2.1⟩

theorem generateTOTP_map_code (d : OTPData) (t : Int) :
    (generateTOTP d t).map TOTPResult.code
      = generateOTPCode d.secret (Int.fdiv t (orDefault d.period 30))
          (orDefault d.digits 6) (orDefaultStr d.algorithm "SHA1")
          (d.type == "hex") := by
  cases h : generateOTPCode d.secret (Int.fdiv t (orDefault d.period 30))
      (orDefault d.digits 6) (orDefaultStr d.algorithm "SHA1")
      (d.type == "hex") with
  | none => simp [generateTOTP, h]
  | some c => simp [generateTOTP, h]

theorem generateTOTP_counter (d : OTPData) (t : Int) (r : TOTPResult)
    (h : generateTOTP d t = some r) :
    r.counter = Int.fdiv t (orDefault d.period 30) := by
  simp only [generateTOTP] at h
  cases hg : generateOTPCode d.secret (Int.fdiv t (orDefault d.period 30))
      (orDefault d.digits 6) (orDefaultStr d.algorithm "SHA1")
      (d.type == "hex") with
  | none => rw [hg] at h; simp at h
  | some c =>
    rw [hg] at h
    obtain rfl : _ = r := by simpa using h
    rfl

/-- C9: `generateTOTP` yields the same code string at any two timestamps
with the same period-aligned window (`floor(t / period)` equal), and for
timestamps in adjacent windows the returned counter fields differ. -/
theorem totp_same_window_same_code (d : OTPData) (t1 t2 : Int) :
    (Int.fdiv t1 (orDefault d.period 30) = Int.fdiv t2 (orDefault d.period 30) →
      (generateTOTP d t1).map TOTPResult.code
        = (generateTOTP d t2).map TOTPResult.code) ∧
    (Int.fdiv t2 (orDefault d.period 30) = Int.fdiv t1 (orDefault d.period 30) + 1 →
      ∀ r1 r2, generateTOTP d t1 = some r1 → generateTOTP d t2 = some r2 →
        r1.counter ≠ r2.counter) := by
  constructor
  · intro hw
    rw [generateTOTP_map_code, generateTOTP_map_code, hw]
  · intro hw r1 r2 h1 h2
    rw [generateTOTP_counter d t1 r1 h1, generateTOTP_counter d t2 r2 h2, hw]
    omega

/-- C9 witness: timestamps 31 and 59 share window 1 and the code `996554`;
65 is in the adjacent window 2 and its result carries a different counter. -/
theorem totp_same_window_same_code_witness :
    ((generateTOTP ⟨"totp", "JBSWY3DPEHPK3PXP", "", 0, 0, 0⟩ 31).map TOTPResult.code
      = (generateTOTP ⟨"totp", "JBSWY3DPEHPK3PXP", "", 0, 0, 0⟩ 59).map TOTPResult.code) ∧
    (⟨"996554", "TOTP", 29, 30, 1, 60, true⟩ : TOTPResult).counter
      ≠ (⟨"602287", "TOTP", 25, 30, 2, 90, true⟩ : TOTPResult).counter :=
  ⟨(totp_same_window_same_code ⟨"totp", "JBSWY3DPEHPK3PXP", "", 0, 0, 0⟩ 31 59).1
      (by decide),
   (totp_same_window_same_code ⟨"totp", "JBSWY3DPEHPK3PXP", "", 0, 0, 0⟩ 31 65).2
      (by decide) _ _ (by decide) (by decide)⟩

theorem verifyScan_no_match (d : OTPData) (pc : String) (now : Int) (p : Nat) :
    ∀ offs : List Int,
      (∀ i ∈ offs, (generateTOTP d (now + i * p)).isSome) →
      (∀ i ∈ offs, (generateTOTP d (now + i * p)).map TOTPResult.code ≠ some pc) →
      verifyScan d pc now p offs = some none
  | [] => by intro _ _; rfl
  | i :: rest => by
    intro hs hn
    obtain ⟨r, hr⟩ := Option.isSome_iff_exists.mp (hs i (by simp))
    have hcode : r.code ≠ pc := by
      intro hc
      exact hn i (by simp) (by simp [hr, hc])
    have hcond : ¬((r.code == pc) = true) := by simpa using hcode
    rw [verifyScan, hr]
    simp only [Option.bind_eq_bind, Option.some_bind]
    rw [if_neg hcond]
    exact verifyScan_no_match d pc now p rest
      (fun j hj => hs j (by simp [hj])) (fun j hj => hn j (by simp [hj]))

theorem verifyScan_first_match (d : OTPData) (pc : String) (now : Int) (p : Nat) :
    ∀ offs : List Int, offs.Pairwise (· < ·) →
      (∀ i ∈ offs, (generateTOTP d (now + i * p)).isSome) →
      ∀ i₀, i₀ ∈ offs →
        (generateTOTP d (now + i₀ * p)).map TOTPResult.code = some pc →
        (∀ j ∈ offs, (generateTOTP d (now + j * p)).map TOTPResult.code = some pc
          → i₀ ≤ j) →
        verifyScan d pc now p offs = some (some
          { valid := true, timeOffset := some (i₀ * p), providedCode := pc,
            expectedCode := pc,
            timeWindow := some (if i₀ = 0 then "current"
              else if i₀ < 0 then "previous" else "next"),
            counter := none })
  | [] => by intro _ _ i₀ h; simp at h
  | i :: rest => by
    intro hpw hs i₀ hmem hmatch hmin
    obtain ⟨r, hr⟩ := Option.isSome_iff_exists.mp (hs i (by simp))
    by_cases hi : i₀ = i
    · subst hi
      have hrc : r.code = pc := by
        rw [hr] at hmatch
        simpa using hmatch
      have hcond : (r.code == pc) = true := by simp [hrc]
      rw [verifyScan, hr]
      simp only [Option.bind_eq_bind, Option.some_bind]
      rw [if_pos hcond, hrc]
      rfl
    · have hmem' : i₀ ∈ rest := by
        rcases List.mem_cons.mp hmem with h' | h'
        · exact absurd h' hi
        · exact h'
      have hlt : i < i₀ := (List.pairwise_cons.mp hpw).1 i₀ hmem'
      have hrc : r.code ≠ pc := by
        intro hc
        have := hmin i (by simp) (by simp [hr, hc])
        omega
      have hcond : ¬((r.code == pc) = true) := by simpa using hrc
      rw [verifyScan, hr]
      simp only [Option.bind_eq_bind, Option.some_bind]
      rw [if_neg hcond]
      exact verifyScan_first_match d pc now p rest (List.pairwise_cons.mp hpw).2
        (fun j hj => hs j (by simp [hj])) i₀ hmem' hmatch
        (fun j hj hjm => hmin j (by simp [hj]) hjm)

/-- C10: `verifyCode` (TOTP family) scans offsets `-windowSize … +windowSize`
in increasing order and returns at the first match — so a candidate matching
both an earlier window and the current one is reported with a negative
`timeOffset` and `timeWindow = "previous"`; and when no offset matches, the
result has `valid = false`, carries the currently-expected code and
`timeWindow = "none"`. -/
theorem verify_scan_order (d : OTPData) (pc : String) (w : Nat) (now : Int)
    (hT : d.type ≠ "hotp" ∧ d.type ≠ "hhex")
    (htot : ∀ i : Int, -(w : Int) ≤ i → i ≤ w →
      (generateTOTP d (now + i * (orDefault d.period 30))).isSome) :
    ((∃ i : Int, -(w : Int) ≤ i ∧ i < 0 ∧
        (generateTOTP d (now + i * (orDefault d.period 30))).map TOTPResult.code
          = some pc) →
      (generateTOTP d now).map TOTPResult.code = some pc →
      ∃ res, verifyCode d pc w now = some res ∧ res.valid = true ∧
        (∃ off : Int, res.timeOffset = some off ∧ off < 0) ∧
        res.timeWindow = some "previous") ∧
    ((∀ i : Int, -(w : Int) ≤ i → i ≤ w →
        (generateTOTP d (now + i * (orDefault d.period 30))).map TOTPResult.code
          ≠ some pc) →
      ∃ res, verifyCode d pc w now = some res ∧ res.valid = false ∧
        (generateTOTP d now).map TOTPResult.code = some res.expectedCode ∧
        res.timeWindow = some "none") := by
  set p := orDefault d.period 30 with hp
  set offs := (List.range (2 * w + 1)).map (fun (j : Nat) => (j : Int) - (w : Int)) with hoffs
  have hbranch : (d.type == "hotp" || d.type == "hhex") = false := by
    simp [hT.1, hT.2]
  have hmemiff : ∀ i : Int, i ∈ offs ↔ (-(w : Int) ≤ i ∧ i ≤ w) := by
    intro i
    rw [hoffs]
    simp only [List.mem_map, List.mem_range]
    constructor
    · rintro ⟨j, hj, rfl⟩
      constructor
      · show -(w : Int) ≤ (j : Int) - w
        omega
      · show (j : Int) - w ≤ w
        omega
    · rintro ⟨h1, h2⟩
      refine ⟨(i + w).toNat, by omega, ?_⟩
      show ((i + (w : Int)).toNat : Int) - w = i
      omega
  have hpw : offs.Pairwise (· < ·) := by
    rw [hoffs, List.pairwise_map]
    refine (List.pairwise_lt_range _).imp ?_
    intro a b hab
    show (a : Int) - w < (b : Int) - w
    omega
  have hsucc : ∀ i ∈ offs, (generateTOTP d (now + i * p)).isSome := by
    intro i hi
    obtain ⟨h1, h2⟩ := (hmemiff i).mp hi
    exact htot i h1 h2
  have hppos : (0 : Int) < p := by
    rw [hp, orDefault]
    split <;> omega
  have hcondB : ¬((d.type == "hotp" || d.type == "hhex") = true) := by
    simp [hbranch]
  constructor
  · rintro ⟨im, him1, him2, himc⟩ h0
    have him3 : im ≤ (w : Int) := by omega
    obtain ⟨lb, ⟨hlb1, hlb2, hlbc⟩, hmin⟩ := Int.exists_least_of_bdd
      (P := fun z => -(w : Int) ≤ z ∧ z ≤ w ∧
        (generateTOTP d (now + z * p)).map TOTPResult.code = some pc)
      ⟨-(w : Int), fun z hz => hz.1⟩
      ⟨im, him1, him3, himc⟩
    have hlbneg : lb < 0 := by
      have := hmin im ⟨him1, him3, himc⟩
      omega
    have hscan := verifyScan_first_match d pc now p offs hpw hsucc lb
      ((hmemiff lb).mpr ⟨hlb1, hlb2⟩) hlbc
      (fun j hj hjc =>
        hmin j ⟨((hmemiff j).mp hj).1, ((hmemiff j).mp hj).2, hjc⟩)
    have hv : verifyCode d pc w now = some
        { valid := true, timeOffset := some (lb * p), providedCode := pc,
          expectedCode := pc,
          timeWindow := some (if lb = 0 then "current"
            else if lb < 0 then "previous" else "next"),
          counter := none } := by
      rw [verifyCode, if_neg hcondB]
      dsimp only
      rw [← hp, ← hoffs, hscan]
      rfl
    refine ⟨_, hv, rfl, ⟨lb * p, rfl, mul_neg_of_neg_of_pos hlbneg hppos⟩, ?_⟩
    simp only [if_neg (by omega : ¬lb = 0), if_pos hlbneg]
  · intro hnone
    obtain ⟨r0, hr0⟩ := Option.isSome_iff_exists.mp (htot 0 (by omega) (by omega))
    have hr0' : generateTOTP d now = some r0 := by
      rw [← hr0]
      norm_num
    have hscan := verifyScan_no_match d pc now p offs hsucc
      (fun i hi => hnone i ((hmemiff i).mp hi).1 ((hmemiff i).mp hi).2)
    have hv : verifyCode d pc w now = some
        { valid := false, timeOffset := none, providedCode := pc,
          expectedCode := r0.code, timeWindow := some "none",
          counter := none } := by
      rw [verifyCode, if_neg hcondB]
      dsimp only
      rw [← hp, ← hoffs, hscan]
      simp only [Option.bind_eq_bind, Option.some_bind]
      rw [hr0']
      rfl
    exact ⟨_, hv, rfl, by rw [hr0']; rfl, rfl⟩

/-- C10 witness: for a code matching no window around `now = 70`, the result
is invalid and carries the currently-expected code with window `"none"`. -/
theorem verify_scan_order_witness :
    ∃ res, verifyCode ⟨"totp", "JBSWY3DPEHPK3PXP", "", 0, 0, 0⟩ "000000" 1 70
        = some res ∧
      res.valid = false ∧
      (generateTOTP ⟨"totp", "JBSWY3DPEHPK3PXP", "", 0, 0, 0⟩ 70).map TOTPResult.code
        = some res.expectedCode ∧
      res.timeWindow = some "none" :=
  (verify_scan_order ⟨"totp", "JBSWY3DPEHPK3PXP", "", 0, 0, 0⟩ "000000" 1 70
    ⟨by decide, by decide⟩
    (by intro i h1 h2; interval_cases i <;> decide)).2
    (by intro i h1 h2; interval_cases i <;> decide)

end NodeAuth
